import Mathlib

/-
  Verification development for the gotify-webhook plugin
  (repository wuxs/gotify-webhook, file plugin.go of the `apps`/allow-list
  variant, whose functions are `sendMessage`, `processWebhookBody`,
  `processJSONRecursive`, `processTemplateString`, `sendHTTPRequest`,
  `ValidateAndSetConfig`, `Enable`, `Disable`).

  The Go code is shallowly embedded: pure functions become Lean functions,
  in-place mutation of the JSON tree becomes explicit value passing, the
  network is an explicit oracle argument, and the cancellable context is a
  boolean flag (its state is fixed for the duration of one dispatch).
-/

set_option autoImplicit false

namespace GotifyWebhook

/-- Embedding of `MessageExternal` (one inbound notification).  `Extras` and
`Date` are never read by the dispatch pipeline and are omitted. -/
structure MessageExternal where
  ID : Nat
  ApplicationID : Nat
  Message : String
  Title : String
  Priority : Int
  deriving Repr, DecidableEq

/-- Embedding of the `WebHook` configuration entry (the `apps` variant):
url, method, body template, header map and the allow-list of application
ids.  The Go header `map[string]string` is represented as an association
list. -/
structure WebHook where
  Url : String
  Method : String
  Body : String
  Header : List (String × String)
  Apps : List Nat
  deriving Repr, DecidableEq

/-! ## Template engine

The plugin renders bodies with Go `text/template` against the data map
`\x7b"title": msg.Title, "message": msg.Message\x7d`.  We embed the
variable-substitution fragment that the plugin's documentation supports
(`README.md`: placeholders `\x7b\x7b.title\x7d\x7d` and
`\x7b\x7b.message\x7d\x7d`): literal text and `\x7b\x7b.field\x7d\x7d`
actions.  As in Go, an action holding a bare identifier (no leading dot) is
rejected at parse time (`function "name" not defined`), an unterminated
action is rejected (`unclosed action`), and looking up a missing key of the
data map renders as `<no value>` without error.  Control-flow actions,
pipelines and the bare-dot action are outside the embedded fragment. -/

def lbrace : Char := Char.ofNat 123

def rbrace : Char := Char.ofNat 125

/-- One parsed template node: a literal chunk or a `.field` action. -/
inductive TplNode where
  | text (s : String)
  | field (name : String)
  deriving Repr, DecidableEq

/-- Scan for the closing `\x7d\x7d` of an action; returns the action body
and the remainder of the input. -/
def findClose : List Char → Option (List Char × List Char)
  | [] => none
  | [_] => none
  | c1 :: c2 :: rest =>
    if c1 = rbrace ∧ c2 = rbrace then some ([], rest)
    else
      match findClose (c2 :: rest) with
      | none => none
      | some (a, b) => some (c1 :: a, b)

def isIdentChar (c : Char) : Bool := c.isAlphanum || c = '_'

/-- Parse the inside of one `\x7b\x7b ... \x7d\x7d` action.  Mirrors what Go
`text/template` accepts on the embedded fragment: spaces are trimmed, a
leading dot followed by an identifier is a field access, a bare identifier
is an undefined function (parse error). -/
def parseAction (inside : List Char) : Except String TplNode :=
  let trimmed := ((inside.dropWhile (· = ' ')).reverse.dropWhile (· = ' ')).reverse
  match trimmed with
  | [] => Except.error "missing value for command"
  | '.' :: rest =>
    if rest = [] then Except.error "unsupported action: bare dot"
    else if rest.all isIdentChar then Except.ok (TplNode.field (String.mk rest))
    else Except.error "bad character in field name"
  | c :: rest =>
    if (c :: rest).all isIdentChar then
      Except.error ("function " ++ String.mk (c :: rest) ++ " not defined")
    else Except.error "unrecognized character in action"

/-- Parse a template into nodes.  Literal characters become singleton text
nodes; `\x7b\x7b` opens an action which must be closed by `\x7d\x7d`.  The
fuel argument only serves structural recursion; `findClose` strictly
shrinks the input, so any fuel above the input length never runs out. -/
def parseTplAux : Nat → List Char → Except String (List TplNode)
  | 0, _ => Except.error "template fuel exhausted"
  | Nat.succ _, [] => Except.ok []
  | Nat.succ _, [c] => Except.ok [TplNode.text (String.singleton c)]
  | Nat.succ fuel, c1 :: c2 :: rest2 =>
    if c1 = lbrace ∧ c2 = lbrace then
      match findClose rest2 with
      | none => Except.error "unclosed action"
      | some (inside, rest') =>
        match parseAction inside with
        | Except.error e => Except.error e
        | Except.ok node =>
          match parseTplAux fuel rest' with
          | Except.error e => Except.error e
          | Except.ok nodes => Except.ok (node :: nodes)
    else
      match parseTplAux fuel (c2 :: rest2) with
      | Except.error e => Except.error e
      | Except.ok nodes => Except.ok (TplNode.text (String.singleton c1) :: nodes)

/-- Field lookup on the data map the plugin passes to `Execute`: keys
`title` and `message`; any other key is absent and renders `<no value>`. -/
def lookupField (name : String) (msg : MessageExternal) : String :=
  if name = "title" then msg.Title
  else if name = "message" then msg.Message
  else "<no value>"

/-- Execute a parsed template against the message; on the embedded
variable-substitution fragment execution never fails. -/
def execTpl (nodes : List TplNode) (msg : MessageExternal) : String :=
  nodes.foldl (fun acc n =>
    acc ++ (match n with
            | TplNode.text s => s
            | TplNode.field f => lookupField f msg)) ""

/-- Embedding of `processTemplateString`: parse the template, then execute
it against `\x7b"title": msg.Title, "message": msg.Message\x7d`. -/
def processTemplateString (s : String) (msg : MessageExternal) : Except String String :=
  match parseTplAux (s.length + 1) s.toList with
  | Except.error e => Except.error ("failed to parse template: " ++ e)
  | Except.ok nodes => Except.ok (execTpl nodes msg)

/-! ## JSON-like values

`encoding/json` unmarshals into `interface\x7b\x7d` trees: `nil`, `bool`,
`float64`, `string`, `[]interface\x7b\x7d` and `map[string]interface\x7b\x7d`.
Numbers are kept as their source lexeme (the claims never depend on Go's
float64 round-trip, and all concrete inputs use canonical integer lexemes,
on which `json.Marshal` reproduces the lexeme).  Go's unordered map is
represented as an association list in insertion order; key order only
matters to the walker when several keys fail, which no theorem relies on,
and `json.Marshal` sorts keys, which the serializer does explicitly. -/

mutual

inductive J where
  | null
  | bool (b : Bool)
  | num (lexeme : String)
  | str (s : String)
  | arr (a : JArr)
  | obj (o : JObj)

inductive JArr where
  | nil
  | cons (hd : J) (tl : JArr)

inductive JObj where
  | nil
  | cons (k : String) (v : J) (tl : JObj)

end

/-! ## Structured Payload Walker

`processJSONRecursive` mutates the Go map in place and threads one `err`
variable through each `for` loop.  The embedding returns the mutated tree
together with the final value of `err`.  Faithfully to the source:

  * a map value that is a string is replaced by the rendering; on a render
    failure the value is first assigned the empty string (Go assigns both
    return values) and the error is returned at once, leaving the later
    keys untouched;
  * a map value that is a map is walked recursively; its partial mutations
    survive even when the recursive call fails;
  * a map value that is an array is walked element by element with the same
    `err` variable and with no early exit, so an element's error is
    overwritten by the outcome of a later string or map element, and
    carried unchanged across elements of any other kind; arrays nested
    directly inside arrays are not entered at all;
  * any other value is left alone. -/

mutual

/-- Walk one value as the `switch` in `processJSONRecursive` does; returns
the mutated value and the error assigned while handling it (`none` = Go
`nil`). -/
def walkVal (msg : MessageExternal) : J → J × Option String
  | J.str s =>
    match processTemplateString s msg with
    | Except.ok s' => (J.str s', none)
    | Except.error e => (J.str "", some e)
  | J.obj o => (J.obj (walkObj msg o).1, (walkObj msg o).2)
  | J.arr a => (J.arr (walkArr msg a none).1, (walkArr msg a none).2)
  | J.null => (J.null, none)
  | J.bool b => (J.bool b, none)
  | J.num lx => (J.num lx, none)

/-- The `for k, v := range m` loop: on a non-nil error the function returns
at once, after having stored the partially processed value under its key. -/
def walkObj (msg : MessageExternal) : JObj → JObj × Option String
  | JObj.nil => (JObj.nil, none)
  | JObj.cons k v tl =>
    match (walkVal msg v).2 with
    | some err => (JObj.cons k (walkVal msg v).1 tl, some err)
    | none => (JObj.cons k (walkVal msg v).1 (walkObj msg tl).1, (walkObj msg tl).2)

/-- The `for i, item := range vv` loop over one array: `err` is threaded
through the whole loop without early exit; only string and map elements
touch it. -/
def walkArr (msg : MessageExternal) : JArr → Option String → JArr × Option String
  | JArr.nil, carried => (JArr.nil, carried)
  | JArr.cons item tl, carried =>
    match item with
    | J.str s =>
      match processTemplateString s msg with
      | Except.ok s' =>
        (JArr.cons (J.str s') (walkArr msg tl none).1, (walkArr msg tl none).2)
      | Except.error e =>
        (JArr.cons (J.str "") (walkArr msg tl (some e)).1, (walkArr msg tl (some e)).2)
    | J.obj o =>
      (JArr.cons (J.obj (walkObj msg o).1) (walkArr msg tl (walkObj msg o).2).1,
       (walkArr msg tl (walkObj msg o).2).2)
    | J.null => (JArr.cons J.null (walkArr msg tl carried).1, (walkArr msg tl carried).2)
    | J.bool b => (JArr.cons (J.bool b) (walkArr msg tl carried).1, (walkArr msg tl carried).2)
    | J.num lx => (JArr.cons (J.num lx) (walkArr msg tl carried).1, (walkArr msg tl carried).2)
    | J.arr a2 => (JArr.cons (J.arr a2) (walkArr msg tl carried).1, (walkArr msg tl carried).2)

end

/-- Embedding of `processJSONRecursive` as called on a (possibly nil) Go
map: the mutated tree on success, the first key-level error otherwise (the
partially mutated tree of the failure case is discarded by the only
caller). -/
def processJSONRecursive (m : JObj) (msg : MessageExternal) : Except String JObj :=
  match walkObj msg m with
  | (m', none) => Except.ok m'
  | (_, some e) => Except.error e

/-! ## JSON text: parsing and serialization

`encoding/json` is embedded at the precision the claims need:
`json.Unmarshal` accepts exactly one JSON document followed by whitespace,
rejects control characters inside strings, rejects leading zeros in
numbers, keeps the last of duplicate object keys, and unmarshals the
literal `null` into a `map[string]interface\x7b\x7d` variable by leaving it
nil.  `json.Marshal` emits objects with keys in sorted order, no extra
whitespace, and escapes quotes, backslashes, control characters and the
HTML characters in strings.  (Astral/surrogate `\u` sequences and the
float64 number round-trip are outside the embedded fragment; no theorem
input touches them.) -/

def isWS (c : Char) : Bool := c = ' ' || c = '\t' || c = '\n' || c = '\r'

def skipWS : List Char → List Char
  | [] => []
  | c :: rest => if isWS c then skipWS rest else c :: rest

def hexVal (c : Char) : Option Nat :=
  if '0' ≤ c ∧ c ≤ '9' then some (c.toNat - 48)
  else if 'a' ≤ c ∧ c ≤ 'f' then some (c.toNat - 87)
  else if 'A' ≤ c ∧ c ≤ 'F' then some (c.toNat - 55)
  else none

/-- Body of a JSON string after the opening quote: unescape until the
closing quote. -/
def parseJStrAux : List Char → List Char → Option (String × List Char)
  | acc, '"' :: rest => some (String.mk acc.reverse, rest)
  | acc, '\\' :: e :: rest =>
    if e = '"' then parseJStrAux ('"' :: acc) rest
    else if e = '\\' then parseJStrAux ('\\' :: acc) rest
    else if e = '/' then parseJStrAux ('/' :: acc) rest
    else if e = 'b' then parseJStrAux (Char.ofNat 8 :: acc) rest
    else if e = 'f' then parseJStrAux (Char.ofNat 12 :: acc) rest
    else if e = 'n' then parseJStrAux ('\n' :: acc) rest
    else if e = 'r' then parseJStrAux ('\r' :: acc) rest
    else if e = 't' then parseJStrAux ('\t' :: acc) rest
    else if e = 'u' then
      match rest with
      | h1 :: h2 :: h3 :: h4 :: rest' =>
        match hexVal h1, hexVal h2, hexVal h3, hexVal h4 with
        | some a, some b, some c, some d =>
          parseJStrAux (Char.ofNat (((a * 16 + b) * 16 + c) * 16 + d) :: acc) rest'
        | _, _, _, _ => none
      | _ => none
    else none
  | acc, c :: rest => if c.toNat < 32 then none else parseJStrAux (c :: acc) rest
  | _, [] => none

def isDigit (c : Char) : Bool := '0' ≤ c && c ≤ '9'

def takeDigits : List Char → List Char × List Char
  | [] => ([], [])
  | c :: rest =>
    if isDigit c then
      let (ds, r) := takeDigits rest
      (c :: ds, r)
    else ([], c :: rest)

/-- JSON number grammar: `-? (0 | [1-9][0-9]*) (. [0-9]+)? ([eE][+-]?[0-9]+)?`.
The lexeme is kept verbatim. -/
def parseNum (cs : List Char) : Option (String × List Char) :=
  let (neg, cs1) := match cs with
                    | '-' :: r => (['-'], r)
                    | r => (([] : List Char), r)
  match takeDigits cs1 with
  | ([], _) => none
  | (d :: ds, cs2) =>
    if d = '0' ∧ ds ≠ [] then none
    else
      let intPart := neg ++ d :: ds
      let (fracPart, cs3) :=
        match cs2 with
        | '.' :: r =>
          match takeDigits r with
          | ([], _) => (none, cs2)
          | (fs, r') => (some ('.' :: fs), r')
        | _ => (none, cs2)
      match fracPart with
      | none =>
        match cs2 with
        | '.' :: _ => none
        | _ =>
          match parseExpPart cs2 with
          | none => none
          | some (es, cs4) => some (String.mk (intPart ++ es), cs4)
      | some fs =>
        match parseExpPart cs3 with
        | none => none
        | some (es, cs4) => some (String.mk (intPart ++ fs ++ es), cs4)
where
  parseExpPart (cs : List Char) : Option (List Char × List Char) :=
    match cs with
    | 'e' :: r => parseExpDigits 'e' r
    | 'E' :: r => parseExpDigits 'E' r
    | _ => some ([], cs)
  parseExpDigits (e : Char) (r : List Char) : Option (List Char × List Char) :=
    let (sign, r1) := match r with
                      | '+' :: r' => (['+'], r')
                      | '-' :: r' => (['-'], r')
                      | r' => (([] : List Char), r')
    match takeDigits r1 with
    | ([], _) => none
    | (ds, r2) => some (e :: sign ++ ds, r2)

/-- Go maps keep one entry per key: a later duplicate key replaces the
earlier value in place. -/
def objUpsert (k : String) (v : J) : JObj → JObj
  | JObj.nil => JObj.cons k v JObj.nil
  | JObj.cons k' v' tl =>
    if k' = k then JObj.cons k' v tl else JObj.cons k' v' (objUpsert k v tl)

def expectLit : List Char → List Char → Option (List Char)
  | [], rest => some rest
  | l :: ls, c :: rest => if c = l then expectLit ls rest else none
  | _ :: _, [] => none

mutual

/-- Recursive-descent parser for one JSON value; `fuel` only bounds the
recursion depth and is chosen large enough by the caller never to run out
on its input. -/
def parseVal : Nat → List Char → Option (J × List Char)
  | 0, _ => none
  | Nat.succ fuel, cs =>
    match skipWS cs with
    | [] => none
    | c :: rest =>
      if c = '"' then
        match parseJStrAux [] rest with
        | some (s, r) => some (J.str s, r)
        | none => none
      else if c = 't' then
        match expectLit ['r', 'u', 'e'] rest with
        | some r => some (J.bool true, r)
        | none => none
      else if c = 'f' then
        match expectLit ['a', 'l', 's', 'e'] rest with
        | some r => some (J.bool false, r)
        | none => none
      else if c = 'n' then
        match expectLit ['u', 'l', 'l'] rest with
        | some r => some (J.null, r)
        | none => none
      else if c = '[' then
        match skipWS rest with
        | ']' :: r => some (J.arr JArr.nil, r)
        | r => match parseArrItems fuel r with
               | some (a, r') => some (J.arr a, r')
               | none => none
      else if c = lbrace then
        match skipWS rest with
        | c' :: r =>
          if c' = rbrace then some (J.obj JObj.nil, r)
          else
            match parseObjItems fuel JObj.nil (c' :: r) with
            | some (o, r') => some (J.obj o, r')
            | none => none
        | [] => none
      else
        match parseNum (c :: rest) with
        | some (lx, r) => some (J.num lx, r)
        | none => none

def parseArrItems : Nat → List Char → Option (JArr × List Char)
  | 0, _ => none
  | Nat.succ fuel, cs =>
    match parseVal fuel cs with
    | none => none
    | some (v, rest) =>
      match skipWS rest with
      | ',' :: r =>
        match parseArrItems fuel r with
        | some (a, r') => some (JArr.cons v a, r')
        | none => none
      | ']' :: r => some (JArr.cons v JArr.nil, r)
      | _ => none

def parseObjItems : Nat → JObj → List Char → Option (JObj × List Char)
  | 0, _, _ => none
  | Nat.succ fuel, acc, cs =>
    match skipWS cs with
    | '"' :: rest =>
      match parseJStrAux [] rest with
      | none => none
      | some (k, rest1) =>
        match skipWS rest1 with
        | ':' :: rest2 =>
          match parseVal fuel rest2 with
          | none => none
          | some (v, rest3) =>
            let acc' := objUpsert k v acc
            match skipWS rest3 with
            | ',' :: r =>
              match parseObjItems fuel acc' r with
              | some (o, r') => some (o, r')
              | none => none
            | c :: r => if c = rbrace then some (acc', r) else none
            | [] => none
        | _ => none
    | _ => none

end

/-- Parse a whole JSON document: one value, then only whitespace. -/
def parseJSONValue (s : String) : Option J :=
  match parseVal (2 * s.length + 2) s.toList with
  | some (v, rest) => if skipWS rest = [] then some v else none
  | none => none

/-- `json.Unmarshal(body, &jsonBody)` with `jsonBody :
map[string]interface\x7b\x7d`: `none` is an unmarshal error; `some none` is
the literal `null` (the map stays nil); `some (some o)` is an object. -/
def goUnmarshalMap (s : String) : Option (Option JObj) :=
  match parseJSONValue s with
  | some (J.obj o) => some (some o)
  | some J.null => some none
  | _ => none

def hexDigit (n : Nat) : Char :=
  if n < 10 then Char.ofNat (48 + n) else Char.ofNat (87 + n)

/-- One character of a marshalled JSON string, with Go's escaping
(including the HTML-safe escapes Go applies by default). -/
def escapeChar (c : Char) : String :=
  if c = '"' then "\\\""
  else if c = '\\' then "\\\\"
  else if c = '\n' then "\\n"
  else if c = '\r' then "\\r"
  else if c = '\t' then "\\t"
  else if c = '<' then "\\u003c"
  else if c = '>' then "\\u003e"
  else if c = '&' then "\\u0026"
  else if c.toNat < 32 then
    "\\u00" ++ String.singleton (hexDigit (c.toNat / 16)) ++ String.singleton (hexDigit (c.toNat % 16))
  else String.singleton c

def quoteStr (s : String) : String :=
  "\"" ++ String.join (s.toList.map escapeChar) ++ "\""

/-- Insert an entry into an object whose keys are already sorted. -/
def objInsert (k : String) (v : J) : JObj → JObj
  | JObj.nil => JObj.cons k v JObj.nil
  | JObj.cons k' v' tl =>
    if k ≤ k' then JObj.cons k v (JObj.cons k' v' tl)
    else JObj.cons k' v' (objInsert k v tl)

mutual

/-- `json.Marshal` iterates map keys in sorted order; sorting the tree
first lets the serializer emit entries in their stored order. -/
def sortJ : J → J
  | J.obj o => J.obj (sortObj o)
  | J.arr a => J.arr (sortArr a)
  | J.null => J.null
  | J.bool b => J.bool b
  | J.num lx => J.num lx
  | J.str s => J.str s

def sortArr : JArr → JArr
  | JArr.nil => JArr.nil
  | JArr.cons hd tl => JArr.cons (sortJ hd) (sortArr tl)

def sortObj : JObj → JObj
  | JObj.nil => JObj.nil
  | JObj.cons k v tl => objInsert k (sortJ v) (sortObj tl)

end

mutual

def serializeJ : J → String
  | J.null => "null"
  | J.bool true => "true"
  | J.bool false => "false"
  | J.num lx => lx
  | J.str s => quoteStr s
  | J.arr a => "[" ++ serializeArrItems a ++ "]"
  | J.obj o => "\x7b" ++ serializeObjItems o ++ "\x7d"

def serializeArrItems : JArr → String
  | JArr.nil => ""
  | JArr.cons hd JArr.nil => serializeJ hd
  | JArr.cons hd tl => serializeJ hd ++ "," ++ serializeArrItems tl

def serializeObjItems : JObj → String
  | JObj.nil => ""
  | JObj.cons k v JObj.nil => quoteStr k ++ ":" ++ serializeJ v
  | JObj.cons k v tl => quoteStr k ++ ":" ++ serializeJ v ++ "," ++ serializeObjItems tl

end

/-- `json.Marshal` on one value. -/
def jsonMarshal (v : J) : String := serializeJ (sortJ v)

/-- `json.Marshal` on the (possibly nil) unmarshalled map. -/
def marshalTop : Option JObj → String
  | none => "null"
  | some o => jsonMarshal (J.obj o)

/-- Embedding of `processWebhookBody`: decide structured-ness by
unmarshalling the raw template into a map; on success walk the tree and
re-marshal it (marshalling a tree of unmarshalled values and rendered
strings cannot fail), otherwise render the whole body as one plain-text
template. -/
def processWebhookBody (body : String) (msg : MessageExternal) : Except String String :=
  match goUnmarshalMap body with
  | some none => Except.ok (marshalTop none)
  | some (some m) =>
    match processJSONRecursive m msg with
    | Except.error e => Except.error ("failed to process JSON body: " ++ e)
    | Except.ok m' => Except.ok (marshalTop (some m'))
  | none => processTemplateString body msg

/-! ## Delivery dispatch

`sendMessage` spawns one goroutine per webhook, joins them all, and
collects errors under a mutex.  Each goroutine is independent, so the
fan-out is embedded as one pure per-webhook outcome, and the dispatch as
the in-order collection of the outcomes (the mutex makes the collection a
multiset; the embedding fixes configuration order).  The governing context
is cancelled or not for the whole dispatch (its state is read once per
goroutine), and the network is an oracle mapping a request to either a
transport-level failure (`none`, which also stands for the rare
`http.NewRequestWithContext` failure) or a status code. -/

/-- One HTTP request handed to `http.DefaultClient.Do`: the destination it
was built for and the body sent (method, URL and headers are read off the
destination). -/
structure Call where
  webhook : WebHook
  body : String
  deriving Repr, DecidableEq

/-- The network oracle: `none` is a transport-level failure, `some n` a
response with status `n`. -/
def Transport : Type := WebHook → String → Option Nat

/-- One collected error of `sendMessage`, tagged as the source tags it:
`ctx.Err()` carries no URL; the two wrapped errors carry `webhook.Url`. -/
inductive SendErr where
  | ctxCanceled
  | processBody (url : String) (e : String)
  | request (url : String) (e : String)
  deriving Repr, DecidableEq

/-- The URL a collected error is tagged with, if any. -/
def SendErr.url? : SendErr → Option String
  | SendErr.ctxCanceled => none
  | SendErr.processBody u _ => some u
  | SendErr.request u _ => some u

/-- Embedding of `sendHTTPRequest`: consult the network and classify the
response; any status outside 200–299 is an error. -/
def sendHTTPRequest (transport : Transport) (w : WebHook) (body : String) : Option String :=
  match transport w body with
  | none => some "failed to send request"
  | some code =>
    if code < 200 ∨ code ≥ 300 then some ("unexpected status code: " ++ toString code)
    else none

/-- The allow-list test of `sendMessage`: an empty `Apps` list filters
nothing; otherwise the event's application id must be listed. -/
def appAllowed (w : WebHook) (msg : MessageExternal) : Bool :=
  w.Apps.isEmpty || w.Apps.contains msg.ApplicationID

/-- One goroutine of `sendMessage`: the error it appends (if any) and the
HTTP requests it hands to the client. -/
def webhookAttempt (cancelled : Bool) (transport : Transport) (msg : MessageExternal)
    (w : WebHook) : Option SendErr × List Call :=
  if cancelled then (some SendErr.ctxCanceled, [])
  else if ¬ appAllowed w msg then (none, [])
  else
    match processWebhookBody w.Body msg with
    | Except.error e =>
      (some (SendErr.processBody w.Url ("failed to process webhook body for " ++ w.Url ++ ": " ++ e)), [])
    | Except.ok body =>
      match sendHTTPRequest transport w body with
      | some e =>
        (some (SendErr.request w.Url ("failed to send webhook request to " ++ w.Url ++ ": " ++ e)),
         [⟨w, body⟩])
      | none => (none, [⟨w, body⟩])

/-- Embedding of `sendMessage`: every goroutine's outcome, joined. -/
def sendMessage (cancelled : Bool) (transport : Transport) (msg : MessageExternal)
    (webhooks : List WebHook) : List SendErr × List Call :=
  (webhooks.filterMap (fun w => (webhookAttempt cancelled transport msg w).1),
   webhooks.flatMap (fun w => (webhookAttempt cancelled transport msg w).2))

/-- Payload construction succeeds for this webhook and message. -/
def buildOk (msg : MessageExternal) (w : WebHook) : Bool :=
  (processWebhookBody w.Body msg).isOk

/-- The destination is eligible: not filtered out by the allow-list. -/
def eligible (msg : MessageExternal) (w : WebHook) : Bool :=
  appAllowed w msg

/-- Delivery to one destination succeeds: the payload builds, no
transport-level failure, and the status is in 200–299. -/
def deliveryOk (transport : Transport) (msg : MessageExternal) (w : WebHook) : Bool :=
  match processWebhookBody w.Body msg with
  | Except.error _ => false
  | Except.ok body =>
    match transport w body with
    | none => false
    | some code => 200 ≤ code && code < 300

/-! ## URL parsing and configuration validation

`ValidateAndSetConfig` first stores the incoming configuration in the
plugin, then walks the webhook slice in order, mutating each entry in
place: the method default is written first, then the URL is checked
(`url.Parse` error, or empty `Scheme` or `Host`, rejects the whole
configuration at once), then the Content-Type default is written.

`net/url.Parse` is embedded at the precision the scheme/host check needs:
control characters make parsing fail, a leading `name:` with a letter
first and scheme characters throughout is the scheme (no colon, a colon
first, or an invalid character before the colon leave the scheme empty; a
colon first is a parse error), and a host is present exactly when the
remainder begins with `//`, running to the next `/`, `?` or `#` with any
user-info prefix up to the last `@` stripped.  Go's extra host-character
validation is outside the fragment; no theorem input relies on it. -/

def isSchemeChar (c : Char) : Bool :=
  c.isAlpha || c.isDigit || c = '+' || c = '-' || c = '.'

/-- Split off the `scheme:` prefix as `url.getscheme` does; `none` is a
parse error ("missing protocol scheme"). -/
def goGetScheme (cs : List Char) : Option (String × List Char) :=
  let pre := cs.takeWhile (· ≠ ':')
  let post := cs.dropWhile (· ≠ ':')
  match post with
  | [] => some ("", cs)
  | _ :: rest =>
    match pre with
    | [] => none
    | c :: cs' =>
      if c.isAlpha ∧ cs'.all isSchemeChar then some (String.mk ((c :: cs').map Char.toLower), rest)
      else some ("", cs)

/-- Strip the user-info: keep what follows the last `@`. -/
def afterLastAt (cs : List Char) : List Char :=
  cs.foldl (fun acc c => if c = '@' then [] else acc ++ [c]) []

/-- `url.Parse`, reduced to the `(Scheme, Host)` pair the validation reads;
`none` is a parse error. -/
def goURLParse (s : String) : Option (String × String) :=
  let cs := s.toList
  if cs.any (fun c => c.toNat < 32 || c.toNat = 127) then none
  else
    match goGetScheme cs with
    | none => none
    | some (scheme, rest) =>
      match rest with
      | '/' :: '/' :: rest2 =>
        let authority := rest2.takeWhile (fun c => c ≠ '/' ∧ c ≠ '?' ∧ c ≠ '#')
        some (scheme, String.mk (afterLastAt authority))
      | _ => some (scheme, "")

/-- The acceptance test of `ValidateAndSetConfig`: `url.Parse` succeeds
with non-empty scheme and host. -/
def validWebhookURL (u : String) : Bool :=
  match goURLParse u with
  | none => false
  | some (scheme, host) => scheme ≠ "" && host ≠ ""

/-- `webhook.Method = "POST"` when unset (written before the URL check). -/
def defaultMethod (w : WebHook) : WebHook :=
  if w.Method = "" then { w with Method := "POST" } else w

/-- The header map already carries a Content-Type entry. -/
def hasContentType (w : WebHook) : Bool :=
  w.Header.any (fun p => p.1 = "Content-Type")

/-- Default Content-Type entry, written only for accepted entries. -/
def defaultContentType (w : WebHook) : WebHook :=
  if hasContentType w then w
  else { w with Header := w.Header ++ [("Content-Type", "text/plain")] }

/-- Embedding of `Config`. -/
structure Config where
  ClientToken : String
  HostServer : String
  WebHooks : List WebHook
  deriving Repr, DecidableEq

/-- The validation loop over the webhook slice.  Entries are mutated in
place through their pointers, so the state of the slice at the moment of
an early error return is observable: the entries before the offender carry
both defaults, the offender carries the method default only, the rest are
untouched. -/
def validateWebhooks : List WebHook → List WebHook × Option String
  | [] => ([], none)
  | w :: rest =>
    if ¬ validWebhookURL (defaultMethod w).Url then
      (defaultMethod w :: rest, some ("invalid webhook URL: " ++ (defaultMethod w).Url))
    else
      (defaultContentType (defaultMethod w) :: (validateWebhooks rest).1,
       (validateWebhooks rest).2)

/-! ## Plugin lifecycle state

The `MultiNotifierPlugin` fields the claims read: the stored configuration
(`nil` until first set) and the cancellation function installed by
`Enable`.  `context.CancelFunc` is idempotent by the `context` package's
contract, so cancelling is embedded as setting a flag. -/

structure PluginState where
  config : Option Config
  cancelSet : Bool
  ctxCancelled : Bool
  deriving Repr, DecidableEq

/-- Embedding of `ValidateAndSetConfig`: the incoming configuration is
stored first (`p.config = config.(*Config)`); the loop then mutates the
shared webhook entries in place, so the stored configuration reflects them
whether or not an error is returned.  On success `p.config.WebHooks` is
rewritten to the accepted slice, which contains exactly the processed
entries. -/
def ValidateAndSetConfig (p : PluginState) (config : Config) : PluginState × Option String :=
  ({ p with config := some { config with WebHooks := (validateWebhooks config.WebHooks).1 } },
   (validateWebhooks config.WebHooks).2)

/-- Embedding of `Disable`: call the cancellation function when one was
installed (a second call to a `context.CancelFunc` is a no-op), log, and
return nil. -/
def Disable (p : PluginState) : PluginState × Option String :=
  if p.cancelSet then ({ p with ctxCancelled := true }, none)
  else (p, none)

/-! ## Specification-side notions used by the theorems -/

mutual

/-- Size measure on values, used to drive induction over the tree. -/
def sizeJ : J → Nat
  | J.null => 1
  | J.bool _ => 1
  | J.num _ => 1
  | J.str _ => 1
  | J.arr a => sizeArr a + 1
  | J.obj o => sizeObj o + 1

def sizeArr : JArr → Nat
  | JArr.nil => 0
  | JArr.cons hd tl => sizeJ hd + sizeArr tl + 1

def sizeObj : JObj → Nat
  | JObj.nil => 0
  | JObj.cons _ v tl => sizeJ v + sizeObj tl + 1

end

mutual

/-- Two values agree everywhere except possibly at string leaves. -/
def shapeEqVal : J → J → Bool
  | J.str _, J.str _ => true
  | J.null, J.null => true
  | J.bool b, J.bool b' => b = b'
  | J.num x, J.num x' => x = x'
  | J.arr a, J.arr a' => shapeEqArr a a'
  | J.obj o, J.obj o' => shapeEqObj o o'
  | _, _ => false

def shapeEqArr : JArr → JArr → Bool
  | JArr.nil, JArr.nil => true
  | JArr.cons v tl, JArr.cons v' tl' => shapeEqVal v v' && shapeEqArr tl tl'
  | _, _ => false

def shapeEqObj : JObj → JObj → Bool
  | JObj.nil, JObj.nil => true
  | JObj.cons k v tl, JObj.cons k' v' tl' => k = k' && shapeEqVal v v' && shapeEqObj tl tl'
  | _, _ => false

end

mutual

/-- Clean rendering of exactly the leaves the walker visits, following the
amended claim C3's words: strings that are mapping values, strings that are
direct elements of an array sitting in mapping position, and mappings found
at either place, recursively; `none` as soon as any visited leaf fails.
This is a specification-side function to be compared with the walker. -/
def specRenderVal (msg : MessageExternal) : J → Option J
  | J.str s =>
    match processTemplateString s msg with
    | Except.ok s' => some (J.str s')
    | Except.error _ => none
  | J.obj o =>
    match specRenderObj msg o with
    | some o' => some (J.obj o')
    | none => none
  | J.arr a =>
    match specRenderArr msg a with
    | some a' => some (J.arr a')
    | none => none
  | J.null => some J.null
  | J.bool b => some (J.bool b)
  | J.num lx => some (J.num lx)

def specRenderArr (msg : MessageExternal) : JArr → Option JArr
  | JArr.nil => some JArr.nil
  | JArr.cons item tl =>
    match item with
    | J.str s =>
      match processTemplateString s msg with
      | Except.ok s' =>
        match specRenderArr msg tl with
        | some tl' => some (JArr.cons (J.str s') tl')
        | none => none
      | Except.error _ => none
    | J.obj o =>
      match specRenderObj msg o with
      | some o' =>
        match specRenderArr msg tl with
        | some tl' => some (JArr.cons (J.obj o') tl')
        | none => none
      | none => none
    | J.null =>
      match specRenderArr msg tl with
      | some tl' => some (JArr.cons J.null tl')
      | none => none
    | J.bool b =>
      match specRenderArr msg tl with
      | some tl' => some (JArr.cons (J.bool b) tl')
      | none => none
    | J.num lx =>
      match specRenderArr msg tl with
      | some tl' => some (JArr.cons (J.num lx) tl')
      | none => none
    | J.arr a2 =>
      match specRenderArr msg tl with
      | some tl' => some (JArr.cons (J.arr a2) tl')
      | none => none

def specRenderObj (msg : MessageExternal) : JObj → Option JObj
  | JObj.nil => some JObj.nil
  | JObj.cons k v tl =>
    match specRenderVal msg v with
    | some v' =>
      match specRenderObj msg tl with
      | some tl' => some (JObj.cons k v' tl')
      | none => none
    | none => none

end

mutual

/-- The string leaves the walker actually visits (strings nested in arrays
within arrays are absent). -/
def visitedVal : J → List String
  | J.str s => [s]
  | J.obj o => visitedObj o
  | J.arr a => visitedArr a
  | J.null => []
  | J.bool _ => []
  | J.num _ => []

def visitedArr : JArr → List String
  | JArr.nil => []
  | JArr.cons (J.str s) tl => s :: visitedArr tl
  | JArr.cons (J.obj o) tl => visitedObj o ++ visitedArr tl
  | JArr.cons J.null tl => visitedArr tl
  | JArr.cons (J.bool _) tl => visitedArr tl
  | JArr.cons (J.num _) tl => visitedArr tl
  | JArr.cons (J.arr _) tl => visitedArr tl

def visitedObj : JObj → List String
  | JObj.nil => []
  | JObj.cons _ v tl => visitedVal v ++ visitedObj tl

end

/-- A fixed message with title `T` and message `M`, used by the concrete
counterexamples and witnesses. -/
def msgTM : MessageExternal :=
  { ID := 0, ApplicationID := 0, Message := "M", Title := "T", Priority := 0 }

/-- A transport on which every request fails at the transport level. -/
def transportDown : Transport := fun _ _ => none

/-- A transport that answers every request with status 200. -/
def transportAll200 : Transport := fun _ _ => some 200

/-- Fixture: a mapping whose only string leaf sits in an array nested
directly inside an array. -/
def mNested : JObj :=
  JObj.cons "k"
    (J.arr (JArr.cons (J.arr (JArr.cons (J.str "\x7b\x7b.title\x7d\x7d") JArr.nil)) JArr.nil))
    JObj.nil

/-- Fixture: a mapping holding one array whose first element is an invalid
template and whose second element renders fine. -/
def mMask : JObj :=
  JObj.cons "a"
    (J.arr (JArr.cons (J.str "\x7b\x7bbad") (JArr.cons (J.str "x") JArr.nil)))
    JObj.nil

/-- The tree the walker actually produces on `mMask`. -/
def mMaskRes : JObj :=
  JObj.cons "a"
    (J.arr (JArr.cons (J.str "") (JArr.cons (J.str "x") JArr.nil)))
    JObj.nil

/-- Fixture: an unfiltered destination with a title-only template. -/
def whPlain : WebHook :=
  { Url := "http://a.example", Method := "POST", Body := "\x7b\x7b.title\x7d\x7d",
    Header := [], Apps := [] }

/-- Fixture: a destination whose allow-list names only application 7. -/
def whFiltered : WebHook :=
  { Url := "http://f.example", Method := "POST", Body := "x", Header := [], Apps := [7] }

/-- Both defaults of the validation loop, applied to one entry. -/
def applyDefaults (w : WebHook) : WebHook := defaultContentType (defaultMethod w)

/-- A plugin state with nothing configured yet. -/
def pInit : PluginState := { config := none, cancelSet := false, ctxCancelled := false }

/-- Fixture: a method-less, header-less destination with a valid URL. -/
def whGood : WebHook :=
  { Url := "http://ok.example", Method := "", Body := "b", Header := [], Apps := [] }

/-- Fixture: a destination whose URL has no scheme and no host. -/
def whBad : WebHook :=
  { Url := "bad", Method := "", Body := "", Header := [], Apps := [] }

/-- A configuration with one method-less, header-less valid destination. -/
def cfgOK : Config :=
  { ClientToken := "t", HostServer := "ws://localhost", WebHooks := [whGood] }

/-- A configuration whose second destination has an invalid URL. -/
def cfgBad : Config :=
  { ClientToken := "t", HostServer := "ws://localhost", WebHooks := [whGood, whBad] }

/-! # Theorems -/

/-- Each goroutine of a dispatch under an already-cancelled context records
`ctx.Err()` and consults the network for nothing. -/
theorem webhookAttempt_cancelled (t : Transport) (msg : MessageExternal) (w : WebHook) :
    webhookAttempt true t msg w = (some SendErr.ctxCanceled, []) := rfl

/-- Dispatch under an already-cancelled context: one context error per
configured destination, no HTTP calls at all. -/
theorem sendMessage_cancelled (t : Transport) (msg : MessageExternal) (ws : List WebHook) :
    sendMessage true t msg ws = (ws.map (fun _ => SendErr.ctxCanceled), []) := by
  unfold sendMessage
  induction ws with
  | nil => rfl
  | cons hd tl ih =>
    simp only [List.filterMap_cons, List.flatMap_cons, List.map_cons, webhookAttempt_cancelled,
      List.nil_append] at ih ⊢
    injection ih with ih1 ih2
    rw [ih1, ih2]

/-- Claim C8, counterexample: with an empty destination list, dispatching
under an already-cancelled context returns no error at all, against the
claim's "yields at least one error". -/
theorem C8_counterexample :
    (sendMessage true transportDown msgTM []).1 = [] ∧
    (sendMessage true transportDown msgTM []).2 = [] := ⟨rfl, rfl⟩

/-- Claim C8 (amended: at least one destination is configured):
dispatching an inbound event under an already-cancelled governing context
yields at least one error and hands no request at all to the HTTP client,
hence makes no successful HTTP call. -/
theorem C8_cancelled_dispatch (t : Transport) (msg : MessageExternal) (ws : List WebHook)
    (hne : ws ≠ []) :
    (sendMessage true t msg ws).1 ≠ [] ∧ (sendMessage true t msg ws).2 = [] := by
  rw [sendMessage_cancelled]
  refine ⟨?_, rfl⟩
  simpa using hne

/-- Witness for C8: a concrete one-destination dispatch under a cancelled
context errors and calls nobody. -/
theorem C8_cancelled_dispatch_witness :
    (sendMessage true transportDown msgTM [whPlain]).1 ≠ [] ∧
    (sendMessage true transportDown msgTM [whPlain]).2 = [] :=
  C8_cancelled_dispatch transportDown msgTM [whPlain] (by simp)

/-- Claim C5, counterexample: rendering the claim's template
`(\x7b\x7btitle\x7d\x7d - \x7b\x7bmessage\x7d\x7d)` with title `T` and
message `M` does not succeed: Go `text/template` reads the bare `title` as
a function name and fails at parse time (the code and its README use
`.title`/`.message`).  -/
theorem C5_counterexample :
    (processTemplateString "\x7b\x7btitle\x7d\x7d - \x7b\x7bmessage\x7d\x7d" msgTM).isOk = false ∧
    processTemplateString "\x7b\x7btitle\x7d\x7d - \x7b\x7bmessage\x7d\x7d" msgTM =
      Except.error "failed to parse template: function title not defined" := ⟨rfl, rfl⟩

/-- Claim C5 (amended: the placeholders are `.title` and `.message`):
rendering `(\x7b\x7b.title\x7d\x7d - \x7b\x7b.message\x7d\x7d)` with
title `T`, message `M` succeeds and yields exactly `T - M`. -/
theorem C5_plain_text_roundtrip :
    processTemplateString "\x7b\x7b.title\x7d\x7d - \x7b\x7b.message\x7d\x7d" msgTM =
      Except.ok "T - M" := rfl

/-- Claim C9: Disable never returns an error — with or without an
installed cancellation function — and is idempotent on the plugin state,
because the code guards the nil case and `context.CancelFunc` absorbs
repeated calls. -/
theorem C9_disable_idempotent (p : PluginState) :
    (Disable p).2 = none ∧
    (Disable (Disable p).1).2 = none ∧
    (Disable (Disable p).1).1 = (Disable p).1 := by
  unfold Disable
  by_cases h : p.cancelSet <;> simp [h]

mutual

theorem shapeEqVal_refl : ∀ v : J, shapeEqVal v v = true := by
  intro v
  cases v with
  | null => rfl
  | bool b => simp [shapeEqVal]
  | num x => simp [shapeEqVal]
  | str s => rfl
  | arr a => simp only [shapeEqVal]; exact shapeEqArr_refl a
  | obj o => simp only [shapeEqVal]; exact shapeEqObj_refl o

theorem shapeEqArr_refl : ∀ a : JArr, shapeEqArr a a = true := by
  intro a
  cases a with
  | nil => rfl
  | cons hd tl =>
    simp only [shapeEqArr, Bool.and_eq_true]
    exact ⟨shapeEqVal_refl hd, shapeEqArr_refl tl⟩

theorem shapeEqObj_refl : ∀ o : JObj, shapeEqObj o o = true := by
  intro o
  cases o with
  | nil => rfl
  | cons k v tl =>
    simp only [shapeEqObj, Bool.and_eq_true, decide_eq_true_eq]
    exact ⟨⟨by trivial, shapeEqVal_refl v⟩, shapeEqObj_refl tl⟩

end

theorem walkVal_str_shape (msg : MessageExternal) (s : String) :
    shapeEqVal (J.str s) (walkVal msg (J.str s)).1 = true := by
  unfold walkVal
  cases processTemplateString s msg <;> rfl

mutual

theorem walkVal_shape (msg : MessageExternal) (v : J) : shapeEqVal v (walkVal msg v).1 = true := by
  cases v with
  | null => rfl
  | bool b => simp [walkVal, shapeEqVal]
  | num x => simp [walkVal, shapeEqVal]
  | str s => exact walkVal_str_shape msg s
  | arr a => simp only [walkVal, shapeEqVal]; exact walkArr_shape msg a none
  | obj o => simp only [walkVal, shapeEqVal]; exact walkObj_shape msg o
  termination_by sizeJ v
  decreasing_by
    all_goals try simp_wf
    all_goals try simp only [sizeJ, sizeArr, sizeObj]
    all_goals omega

theorem walkArr_shape (msg : MessageExternal) (a : JArr) (carried : Option String) :
    shapeEqArr a (walkArr msg a carried).1 = true := by
  cases a with
  | nil => rfl
  | cons item tl =>
    cases item with
    | str s =>
      simp only [walkArr]
      cases processTemplateString s msg with
      | ok s' =>
        simp only [shapeEqArr, Bool.and_eq_true, shapeEqVal]
        exact ⟨by trivial, walkArr_shape msg tl none⟩
      | error e =>
        simp only [shapeEqArr, Bool.and_eq_true, shapeEqVal]
        exact ⟨by trivial, walkArr_shape msg tl (some e)⟩
    | obj o =>
      simp only [walkArr, shapeEqArr, Bool.and_eq_true, shapeEqVal]
      exact ⟨walkObj_shape msg o, walkArr_shape msg tl (walkObj msg o).2⟩
    | null =>
      simp only [walkArr, shapeEqArr, Bool.and_eq_true]
      exact ⟨shapeEqVal_refl J.null, walkArr_shape msg tl carried⟩
    | bool b =>
      simp only [walkArr, shapeEqArr, Bool.and_eq_true]
      exact ⟨shapeEqVal_refl (J.bool b), walkArr_shape msg tl carried⟩
    | num x =>
      simp only [walkArr, shapeEqArr, Bool.and_eq_true]
      exact ⟨shapeEqVal_refl (J.num x), walkArr_shape msg tl carried⟩
    | arr a' =>
      simp only [walkArr, shapeEqArr, Bool.and_eq_true]
      exact ⟨shapeEqVal_refl (J.arr a'), walkArr_shape msg tl carried⟩
  termination_by sizeArr a
  decreasing_by
    all_goals try simp_wf
    all_goals try simp only [sizeJ, sizeArr, sizeObj]
    all_goals omega

theorem walkObj_shape (msg : MessageExternal) (o : JObj) : shapeEqObj o (walkObj msg o).1 = true := by
  cases o with
  | nil => rfl
  | cons k v tl =>
    cases he : (walkVal msg v).2 with
    | some err =>
      simp only [walkObj, he, shapeEqObj, Bool.and_eq_true, decide_eq_true_eq]
      exact ⟨⟨by trivial, walkVal_shape msg v⟩, shapeEqObj_refl tl⟩
    | none =>
      simp only [walkObj, he, shapeEqObj, Bool.and_eq_true, decide_eq_true_eq]
      exact ⟨⟨by trivial, walkVal_shape msg v⟩, walkObj_shape msg tl⟩
  termination_by sizeObj o
  decreasing_by
    all_goals try simp_wf
    all_goals try simp only [sizeJ, sizeArr, sizeObj]
    all_goals omega

end

/-- Claim C6: a successful run of the Structured Payload Walker preserves
every non-string node — keys, array lengths, numbers, booleans, nulls and
the nesting structure — only string leaves can change. -/
theorem C6_walker_frame (msg : MessageExternal) (m m' : JObj)
    (h : processJSONRecursive m msg = Except.ok m') : shapeEqObj m m' = true := by
  unfold processJSONRecursive at h
  cases hw : walkObj msg m with
  | mk m1 e1 =>
    rw [hw] at h
    cases e1 with
    | none =>
      simp only [] at h
      injection h with h1
      subst h1
      have := walkObj_shape msg m
      rw [hw] at this
      exact this
    | some err => cases h

/-- Witness for C6 at a concrete tree the walker rewrites. -/
theorem C6_walker_frame_witness : shapeEqObj mMask mMaskRes = true :=
  C6_walker_frame msgTM mMask mMaskRes rfl

/-- Claim C3, counterexample.  First input: the only string leaf sits in an
array nested directly inside an array; the walker returns the tree
unchanged even though the leaf is a renderable template (the claim demands
it be rendered exactly once, i.e. to `T`).  Second input: the first element
of an array fails to render, yet the walker succeeds — the loop overwrites
the error with the second element's success and leaves an empty string
behind — where the claim demands failure with the first TemplateError. -/
theorem C3_counterexample :
    processJSONRecursive mNested msgTM = Except.ok mNested ∧
    processTemplateString "\x7b\x7b.title\x7d\x7d" msgTM = Except.ok "T" ∧
    ("\x7b\x7b.title\x7d\x7d" : String) ≠ "T" ∧
    processJSONRecursive mMask msgTM = Except.ok mMaskRes ∧
    processTemplateString "\x7b\x7bbad" msgTM =
      Except.error "failed to parse template: unclosed action" :=
  ⟨rfl, rfl, by decide, rfl, rfl⟩

mutual

theorem specRenderVal_walk (msg : MessageExternal) (v : J) :
    ∀ v', specRenderVal msg v = some v' → walkVal msg v = (v', none) := by
  cases v with
  | null => intro v' h; injection h with h1; subst h1; rfl
  | bool b => intro v' h; injection h with h1; subst h1; rfl
  | num x => intro v' h; injection h with h1; subst h1; rfl
  | str s =>
    intro v' h
    simp only [specRenderVal] at h
    cases hr : processTemplateString s msg with
    | ok s' =>
      rw [hr] at h
      injection h with h1
      subst h1
      simp [walkVal, hr]
    | error e => rw [hr] at h; cases h
  | obj o =>
    intro v' h
    simp only [specRenderVal] at h
    cases ho : specRenderObj msg o with
    | none => rw [ho] at h; cases h
    | some o' =>
      rw [ho] at h
      injection h with h1
      subst h1
      have hwo := specRenderObj_walk msg o o' ho
      simp [walkVal, hwo]
  | arr a =>
    intro v' h
    simp only [specRenderVal] at h
    cases ha : specRenderArr msg a with
    | none => rw [ha] at h; cases h
    | some a' =>
      rw [ha] at h
      injection h with h1
      subst h1
      have hwa := specRenderArr_walk msg a a' ha
      simp [walkVal, hwa]
  termination_by sizeJ v
  decreasing_by
    all_goals try simp_wf
    all_goals try simp only [sizeJ, sizeArr, sizeObj]
    all_goals omega

theorem specRenderArr_walk (msg : MessageExternal) (a : JArr) :
    ∀ a', specRenderArr msg a = some a' → walkArr msg a none = (a', none) := by
  cases a with
  | nil => intro a' h; injection h with h1; subst h1; rfl
  | cons item tl =>
    cases item with
    | str s =>
      intro a' h
      simp only [specRenderArr] at h
      cases hr : processTemplateString s msg with
      | error e => rw [hr] at h; cases h
      | ok s' =>
        rw [hr] at h
        cases ht : specRenderArr msg tl with
        | none => rw [ht] at h; cases h
        | some tl' =>
          rw [ht] at h
          injection h with h1
          subst h1
          have hwt := specRenderArr_walk msg tl tl' ht
          simp [walkArr, hr, hwt]
    | obj o =>
      intro a' h
      simp only [specRenderArr] at h
      cases ho : specRenderObj msg o with
      | none => rw [ho] at h; cases h
      | some o' =>
        rw [ho] at h
        cases ht : specRenderArr msg tl with
        | none => rw [ht] at h; cases h
        | some tl' =>
          rw [ht] at h
          injection h with h1
          subst h1
          have hwo := specRenderObj_walk msg o o' ho
          have hwt := specRenderArr_walk msg tl tl' ht
          simp [walkArr, hwo, hwt]
    | null =>
      intro a' h
      simp only [specRenderArr] at h
      cases ht : specRenderArr msg tl with
      | none => rw [ht] at h; cases h
      | some tl' =>
        rw [ht] at h
        injection h with h1
        subst h1
        have hwt := specRenderArr_walk msg tl tl' ht
        simp [walkArr, hwt]
    | bool b =>
      intro a' h
      simp only [specRenderArr] at h
      cases ht : specRenderArr msg tl with
      | none => rw [ht] at h; cases h
      | some tl' =>
        rw [ht] at h
        injection h with h1
        subst h1
        have hwt := specRenderArr_walk msg tl tl' ht
        simp [walkArr, hwt]
    | num x =>
      intro a' h
      simp only [specRenderArr] at h
      cases ht : specRenderArr msg tl with
      | none => rw [ht] at h; cases h
      | some tl' =>
        rw [ht] at h
        injection h with h1
        subst h1
        have hwt := specRenderArr_walk msg tl tl' ht
        simp [walkArr, hwt]
    | arr a2 =>
      intro a' h
      simp only [specRenderArr] at h
      cases ht : specRenderArr msg tl with
      | none => rw [ht] at h; cases h
      | some tl' =>
        rw [ht] at h
        injection h with h1
        subst h1
        have hwt := specRenderArr_walk msg tl tl' ht
        simp [walkArr, hwt]
  termination_by sizeArr a
  decreasing_by
    all_goals try simp_wf
    all_goals try simp only [sizeJ, sizeArr, sizeObj]
    all_goals omega

theorem specRenderObj_walk (msg : MessageExternal) (o : JObj) :
    ∀ o', specRenderObj msg o = some o' → walkObj msg o = (o', none) := by
  cases o with
  | nil => intro o' h; injection h with h1; subst h1; rfl
  | cons k v tl =>
    intro o' h
    simp only [specRenderObj] at h
    cases hv : specRenderVal msg v with
    | none => rw [hv] at h; cases h
    | some v' =>
      rw [hv] at h
      cases ht : specRenderObj msg tl with
      | none => rw [ht] at h; cases h
      | some tl' =>
        rw [ht] at h
        injection h with h1
        subst h1
        have hwv := specRenderVal_walk msg v v' hv
        have hwt := specRenderObj_walk msg tl tl' ht
        simp [walkObj, hwv, hwt]
  termination_by sizeObj o
  decreasing_by
    all_goals try simp_wf
    all_goals try simp only [sizeJ, sizeArr, sizeObj]
    all_goals omega

end

mutual

theorem walkVal_err_origin (msg : MessageExternal) (v : J) :
    ∀ e, (walkVal msg v).2 = some e →
      ∃ s ∈ visitedVal v, processTemplateString s msg = Except.error e := by
  cases v with
  | null => intro e h; cases h
  | bool b => intro e h; cases h
  | num x => intro e h; cases h
  | str s =>
    intro e h
    simp only [walkVal] at h
    cases hr : processTemplateString s msg with
    | ok s' => rw [hr] at h; cases h
    | error e0 =>
      rw [hr] at h
      injection h with h1
      subst h1
      exact ⟨s, by simp [visitedVal], hr⟩
  | obj o =>
    intro e h
    simp only [walkVal] at h
    exact walkObj_err_origin msg o e h
  | arr a =>
    intro e h
    simp only [walkVal] at h
    rcases walkArr_err_origin msg a none e h with hc | hex
    · cases hc
    · exact hex
  termination_by sizeJ v
  decreasing_by
    all_goals try simp_wf
    all_goals try simp only [sizeJ, sizeArr, sizeObj]
    all_goals omega

theorem walkArr_err_origin (msg : MessageExternal) (a : JArr) :
    ∀ (carried : Option String) (e : String), (walkArr msg a carried).2 = some e →
      carried = some e ∨ ∃ s ∈ visitedArr a, processTemplateString s msg = Except.error e := by
  cases a with
  | nil => intro carried e h; exact Or.inl h
  | cons item tl =>
    cases item with
    | str s =>
      intro carried e h
      simp only [walkArr] at h
      cases hr : processTemplateString s msg with
      | ok s' =>
        rw [hr] at h
        rcases walkArr_err_origin msg tl none e h with hc | ⟨s0, hs0, he0⟩
        · cases hc
        · exact Or.inr ⟨s0, by simp [visitedArr, hs0], he0⟩
      | error e0 =>
        rw [hr] at h
        rcases walkArr_err_origin msg tl (some e0) e h with hc | ⟨s0, hs0, he0⟩
        · injection hc with hc1
          subst hc1
          exact Or.inr ⟨s, by simp [visitedArr], hr⟩
        · exact Or.inr ⟨s0, by simp [visitedArr, hs0], he0⟩
    | obj o =>
      intro carried e h
      simp only [walkArr] at h
      rcases walkArr_err_origin msg tl (walkObj msg o).2 e h with hc | ⟨s0, hs0, he0⟩
      · rcases walkObj_err_origin msg o e hc with ⟨s0, hs0, he0⟩
        exact Or.inr ⟨s0, by simp [visitedArr, hs0], he0⟩
      · exact Or.inr ⟨s0, by simp [visitedArr, hs0], he0⟩
    | null =>
      intro carried e h
      simp only [walkArr] at h
      rcases walkArr_err_origin msg tl carried e h with hc | ⟨s0, hs0, he0⟩
      · exact Or.inl hc
      · exact Or.inr ⟨s0, by simp [visitedArr, hs0], he0⟩
    | bool b =>
      intro carried e h
      simp only [walkArr] at h
      rcases walkArr_err_origin msg tl carried e h with hc | ⟨s0, hs0, he0⟩
      · exact Or.inl hc
      · exact Or.inr ⟨s0, by simp [visitedArr, hs0], he0⟩
    | num x =>
      intro carried e h
      simp only [walkArr] at h
      rcases walkArr_err_origin msg tl carried e h with hc | ⟨s0, hs0, he0⟩
      · exact Or.inl hc
      · exact Or.inr ⟨s0, by simp [visitedArr, hs0], he0⟩
    | arr a2 =>
      intro carried e h
      simp only [walkArr] at h
      rcases walkArr_err_origin msg tl carried e h with hc | ⟨s0, hs0, he0⟩
      · exact Or.inl hc
      · exact Or.inr ⟨s0, by simp [visitedArr, hs0], he0⟩
  termination_by sizeArr a
  decreasing_by
    all_goals try simp_wf
    all_goals try simp only [sizeJ, sizeArr, sizeObj]
    all_goals omega

theorem walkObj_err_origin (msg : MessageExternal) (o : JObj) :
    ∀ e, (walkObj msg o).2 = some e →
      ∃ s ∈ visitedObj o, processTemplateString s msg = Except.error e := by
  cases o with
  | nil => intro e h; cases h
  | cons k v tl =>
    intro e h
    simp only [walkObj] at h
    cases he : (walkVal msg v).2 with
    | some err =>
      rw [he] at h
      injection h with h1
      rcases walkVal_err_origin msg v err he with ⟨s0, hs0, he0⟩
      exact ⟨s0, by simp [visitedObj, hs0], h1 ▸ he0⟩
    | none =>
      rw [he] at h
      rcases walkObj_err_origin msg tl e h with ⟨s0, hs0, he0⟩
      exact ⟨s0, by simp [visitedObj, hs0], he0⟩
  termination_by sizeObj o
  decreasing_by
    all_goals try simp_wf
    all_goals try simp only [sizeJ, sizeArr, sizeObj]
    all_goals omega

end

/-- Claim C3 (amended: the walker renders exactly once every string leaf it
visits — mapping values and, inside arrays in mapping position, string and
mapping elements, recursively — but strings inside arrays nested directly
within arrays are never visited; when every visited leaf renders, the
walker succeeds with exactly those leaves replaced; and any error it
returns is a TemplateError of some visited leaf, though not necessarily the
first one encountered, since inside one array a later element's outcome
overwrites an earlier element's error). -/
theorem C3_walker_characterization (msg : MessageExternal) (m : JObj) :
    (∀ m', specRenderObj msg m = some m' → processJSONRecursive m msg = Except.ok m') ∧
    (∀ e, processJSONRecursive m msg = Except.error e →
      ∃ s ∈ visitedObj m, processTemplateString s msg = Except.error e) := by
  constructor
  · intro m' h
    unfold processJSONRecursive
    rw [specRenderObj_walk msg m m' h]
  · intro e h
    unfold processJSONRecursive at h
    cases hw : walkObj msg m with
    | mk m1 e1 =>
      rw [hw] at h
      cases e1 with
      | none => cases h
      | some err =>
        injection h with h1
        exact h1 ▸ walkObj_err_origin msg m err (by rw [hw])

/-- Witness for C3: on a concrete tree whose every visited leaf renders,
the walker returns exactly the spec-side rendering. -/
theorem C3_walker_characterization_witness :
    processJSONRecursive (JObj.cons "t" (J.str "\x7b\x7b.title\x7d\x7d") JObj.nil) msgTM =
      Except.ok (JObj.cons "t" (J.str "T") JObj.nil) :=
  (C3_walker_characterization msgTM (JObj.cons "t" (J.str "\x7b\x7b.title\x7d\x7d") JObj.nil)).1
    (JObj.cons "t" (J.str "T") JObj.nil) rfl

theorem webhookAttempt_calls_webhook (cancelled : Bool) (t : Transport) (msg : MessageExternal)
    (w : WebHook) : ∀ c ∈ (webhookAttempt cancelled t msg w).2, c.webhook = w := by
  intro c hc
  unfold webhookAttempt at hc
  split at hc
  · simp at hc
  · split at hc
    · simp at hc
    · split at hc
      · simp at hc
      · split at hc <;> simp at hc <;> (subst hc; rfl)

theorem webhookAttempt_live_none_iff (t : Transport) (msg : MessageExternal) (w : WebHook) :
    (webhookAttempt false t msg w).1 = none ↔
      (eligible msg w = false ∨ deliveryOk t msg w = true) := by
  unfold webhookAttempt eligible deliveryOk
  by_cases h2 : appAllowed w msg
  · simp only [h2, Bool.true_eq_false, false_or]
    cases hb : processWebhookBody w.Body msg with
    | error e => simp [h2, hb]
    | ok body =>
      simp only [h2, hb]
      unfold sendHTTPRequest
      cases ht : t w body with
      | none => simp [ht]
      | some code =>
        by_cases hcode : code < 200 ∨ code ≥ 300
        · simp only [ht, if_pos hcode]
          simp
          omega
        · simp only [ht, if_neg hcode]
          simp
          omega
  · simp [h2]

theorem webhookAttempt_live_url (t : Transport) (msg : MessageExternal) (w : WebHook)
    (e : SendErr) (h : (webhookAttempt false t msg w).1 = some e) :
    SendErr.url? e = some w.Url := by
  unfold webhookAttempt at h
  split at h
  · rename_i hcontra
    exact absurd hcontra (by simp)
  · split at h
    · simp at h
    · split at h
      · simp at h
        subst h
        rfl
      · split at h <;> simp at h
        subst h
        rfl

theorem webhookAttempt_live_isSome (t : Transport) (msg : MessageExternal) (w : WebHook) :
    (webhookAttempt false t msg w).1.isSome = (eligible msg w && ! deliveryOk t msg w) := by
  cases hfw : (webhookAttempt false t msg w).1 with
  | none =>
    rcases (webhookAttempt_live_none_iff t msg w).mp hfw with h | h <;> simp [h]
  | some e =>
    have hne : ¬ (eligible msg w = false ∨ deliveryOk t msg w = true) := by
      intro hcontra
      rw [← webhookAttempt_live_none_iff t msg w] at hcontra
      rw [hfw] at hcontra
      cases hcontra
    push_neg at hne
    rcases hne with ⟨h1, h2⟩
    simp only [Option.isSome_some, Bool.not_eq_false] at h1 ⊢
    simp [h1, h2]

theorem webhookAttempt_live_call_of_build (t : Transport) (msg : MessageExternal) (w : WebHook)
    (helig : eligible msg w = true) (hbuild : buildOk msg w = true) :
    ∃ c ∈ (webhookAttempt false t msg w).2, c.webhook = w := by
  unfold webhookAttempt
  unfold eligible at helig
  unfold buildOk at hbuild
  simp only [helig]
  cases hb : processWebhookBody w.Body msg with
  | error e => rw [hb] at hbuild; cases hbuild
  | ok body =>
    simp only [hb]
    cases hs : sendHTTPRequest t w body <;> simp [hs]

theorem length_filterMap_isSome {α β : Type} (f : α → Option β) (l : List α) :
    (l.filterMap f).length = (l.filter (fun a => (f a).isSome)).length := by
  induction l with
  | nil => rfl
  | cons hd tl ih => cases hfa : f hd <;> simp [List.filterMap_cons, hfa, List.filter_cons, ih]

/-- Claim C2: a destination with a non-empty allow-list that does not name
the event's application is skipped silently — its goroutine appends no
error and no request for it is ever handed to the HTTP client — while a
destination with an empty allow-list is never filtered: its attempt always
proceeds to produce either a call or an error.  (The governing context is
live; an already-cancelled context is the subject of C8.) -/
theorem C2_allow_list_filter (t : Transport) (msg : MessageExternal) (w : WebHook) :
    (w.Apps ≠ [] → msg.ApplicationID ∉ w.Apps →
      webhookAttempt false t msg w = (none, []) ∧
      ∀ (ws : List WebHook) (c : Call), c ∈ (sendMessage false t msg ws).2 → c.webhook ≠ w) ∧
    (w.Apps = [] →
      (webhookAttempt false t msg w).1.isSome = true ∨ (webhookAttempt false t msg w).2 ≠ []) := by
  constructor
  · intro hne hnotin
    have hallow : appAllowed w msg = false := by
      unfold appAllowed
      simp only [Bool.or_eq_false_iff]
      constructor
      · simpa [List.isEmpty_iff] using hne
      · simpa using hnotin
    have hatt : webhookAttempt false t msg w = (none, []) := by
      unfold webhookAttempt
      simp [hallow]
    refine ⟨hatt, ?_⟩
    intro ws c hc hcw
    rcases List.mem_flatMap.mp hc with ⟨w', hw', hcw'⟩
    have hw'' := webhookAttempt_calls_webhook false t msg w' c hcw'
    rw [hcw] at hw''
    subst hw''
    rw [hatt] at hcw'
    simp at hcw'
  · intro hempty
    have hallow : appAllowed w msg = true := by
      unfold appAllowed
      simp [hempty]
    unfold webhookAttempt
    simp only [hallow]
    cases hb : processWebhookBody w.Body msg with
    | error e => simp
    | ok body => cases hs : sendHTTPRequest t w body <;> simp [hs]

/-- Witness for C2: a concrete destination allowing only application 7 is
skipped for an event from application 0: no error, no call. -/
theorem C2_allow_list_filter_witness :
    webhookAttempt false transportAll200 msgTM whFiltered = (none, []) :=
  ((C2_allow_list_filter transportAll200 msgTM whFiltered).1 (by decide) (by decide)).1

/-- Claim C1: with a live governing context, the error collection of one
dispatch is empty exactly when delivery succeeded for every destination
the allow-list lets through; each failing eligible destination contributes
exactly one error, tagged with its URL (the collection holds one error per
failing eligible entry); every eligible destination whose payload builds
gets its request handed to the HTTP client no matter what happens to the
other destinations; and delivery success is by definition a built payload,
no transport failure, and a status in 200–299. -/
theorem C1_dispatch_aggregation (t : Transport) (msg : MessageExternal) (ws : List WebHook) :
    ((sendMessage false t msg ws).1 = [] ↔
      ∀ w ∈ ws, eligible msg w = true → deliveryOk t msg w = true) ∧
    ((sendMessage false t msg ws).1.length =
      (ws.filter (fun w => eligible msg w && ! deliveryOk t msg w)).length) ∧
    (∀ w ∈ ws, eligible msg w = true → deliveryOk t msg w = false →
      ∃ e ∈ (sendMessage false t msg ws).1, SendErr.url? e = some w.Url) ∧
    (∀ w ∈ ws, eligible msg w = true → buildOk msg w = true →
      ∃ c ∈ (sendMessage false t msg ws).2, c.webhook = w) := by
  refine ⟨?_, ?_, ?_, ?_⟩
  · unfold sendMessage
    simp only [List.filterMap_eq_nil_iff]
    constructor
    · intro h w hw helig
      rcases (webhookAttempt_live_none_iff t msg w).mp (h w hw) with h1 | h1
      · rw [helig] at h1; cases h1
      · exact h1
    · intro h w hw
      rw [webhookAttempt_live_none_iff t msg w]
      cases helig : eligible msg w with
      | false => exact Or.inl rfl
      | true => exact Or.inr (h w hw helig)
  · unfold sendMessage
    rw [length_filterMap_isSome]
    congr 1
    apply List.filter_congr
    intro w _
    exact webhookAttempt_live_isSome t msg w
  · intro w hw helig hfail
    have hne : (webhookAttempt false t msg w).1 ≠ none := by
      rw [Ne, webhookAttempt_live_none_iff t msg w]
      rw [helig, hfail]
      simp
    rcases Option.ne_none_iff_exists'.mp hne with ⟨e, he⟩
    refine ⟨e, ?_, webhookAttempt_live_url t msg w e he⟩
    unfold sendMessage
    exact List.mem_filterMap.mpr ⟨w, hw, he⟩
  · intro w hw helig hbuild
    rcases webhookAttempt_live_call_of_build t msg w helig hbuild with ⟨c, hc, hcw⟩
    refine ⟨c, ?_, hcw⟩
    unfold sendMessage
    exact List.mem_flatMap.mpr ⟨w, hw, hc⟩

/-- Witness for C1: a concrete dispatch whose only destination is eligible
and delivers with status 200 returns the empty error collection. -/
theorem C1_dispatch_aggregation_witness :
    (sendMessage false transportAll200 msgTM [whPlain]).1 = [] :=
  (C1_dispatch_aggregation transportAll200 msgTM [whPlain]).1.mpr (by decide)

/-- Claim C4, counterexample: the raw template `[ 1 ]` parses as a
structured document (a JSON array), the walker leaves it unchanged, and its
canonical re-serialization is `[1]` — yet the Payload Builder returns the
plain-text rendering `[ 1 ]`: the code enters the structured path only when
the template unmarshals into a string-keyed mapping, not for arrays or
scalars. -/
theorem C4_counterexample :
    parseJSONValue "[ 1 ]" = some (J.arr (JArr.cons (J.num "1") JArr.nil)) ∧
    walkVal msgTM (J.arr (JArr.cons (J.num "1") JArr.nil)) =
      (J.arr (JArr.cons (J.num "1") JArr.nil), none) ∧
    jsonMarshal (J.arr (JArr.cons (J.num "1") JArr.nil)) = "[1]" ∧
    processWebhookBody "[ 1 ]" msgTM = Except.ok "[ 1 ]" ∧
    ("[ 1 ]" : String) ≠ "[1]" :=
  ⟨rfl, rfl, rfl, rfl, by decide⟩

/-- Claim C4 (amended: the structured path is taken exactly when the raw
template string unmarshals into a string-keyed mapping — the JSON literal
null also unmarshals, into the nil map, and round-trips to `null`; a
well-formed array or scalar template falls through to the plain-text
path): on an unmarshal failure the whole body is rendered as one plain
template; on success the tree is walked and re-marshalled.  The branch
condition reads only the raw template string, never the rendered
output. -/
theorem C4_payload_builder (body : String) (msg : MessageExternal) :
    (goUnmarshalMap body = none → processWebhookBody body msg = processTemplateString body msg) ∧
    (goUnmarshalMap body = some none → processWebhookBody body msg = Except.ok "null") ∧
    (∀ m, goUnmarshalMap body = some (some m) →
      processWebhookBody body msg =
        (match processJSONRecursive m msg with
         | Except.error e => Except.error ("failed to process JSON body: " ++ e)
         | Except.ok m' => Except.ok (marshalTop (some m')))) := by
  refine ⟨?_, ?_, ?_⟩
  · intro h
    unfold processWebhookBody
    rw [h]
  · intro h
    unfold processWebhookBody
    rw [h]
    rfl
  · intro m h
    unfold processWebhookBody
    rw [h]

/-- Witness for C4: the array-shaped template of the counterexample indeed
goes down the plain-text branch. -/
theorem C4_payload_builder_witness :
    processWebhookBody "[ 1 ]" msgTM = processTemplateString "[ 1 ]" msgTM :=
  (C4_payload_builder "[ 1 ]" msgTM).1 rfl

theorem defaultMethod_Url (w : WebHook) : (defaultMethod w).Url = w.Url := by
  unfold defaultMethod
  split <;> rfl

theorem defaultMethod_Method_ne (w : WebHook) : (defaultMethod w).Method ≠ "" := by
  unfold defaultMethod
  split
  · simp
  · rename_i hne
    exact hne

theorem defaultContentType_Method (w : WebHook) : (defaultContentType w).Method = w.Method := by
  unfold defaultContentType
  split <;> rfl

theorem defaultContentType_hasCT (w : WebHook) :
    hasContentType (defaultContentType w) = true := by
  unfold defaultContentType
  split
  · rename_i hct
    exact hct
  · unfold hasContentType
    simp

theorem validateWebhooks_none_iff (ws : List WebHook) :
    (validateWebhooks ws).2 = none ↔ ∀ w ∈ ws, validWebhookURL w.Url = true := by
  induction ws with
  | nil => simp [validateWebhooks]
  | cons w rest ih =>
    unfold validateWebhooks
    by_cases hv : validWebhookURL (defaultMethod w).Url = true
    · rw [if_neg (by simp [hv])]
      simp only [List.mem_cons]
      rw [defaultMethod_Url] at hv
      constructor
      · intro h w' hw'
        rcases hw' with hw' | hw'
        · subst hw'; exact hv
        · exact (ih.mp h) w' hw'
      · intro h
        exact ih.mpr (fun w' hw' => h w' (Or.inr hw'))
    · rw [if_pos (by simpa using hv)]
      simp only []
      rw [defaultMethod_Url] at hv
      constructor
      · intro h; cases h
      · intro h
        exact absurd (h w (List.mem_cons_self w rest)) hv

theorem validateWebhooks_fst_of_none (ws : List WebHook)
    (h : (validateWebhooks ws).2 = none) :
    (validateWebhooks ws).1 = ws.map (fun w => defaultContentType (defaultMethod w)) := by
  induction ws with
  | nil => rfl
  | cons w rest ih =>
    unfold validateWebhooks at h ⊢
    by_cases hv : validWebhookURL (defaultMethod w).Url = true
    · rw [if_neg (by simp [hv])] at h ⊢
      simp only [List.map_cons]
      rw [ih h]
    · rw [if_pos (by simpa using hv)] at h
      cases h

/-- Claim C7: validation fails (for the whole set) exactly when some
destination URL does not parse with a non-empty scheme and host; and on
success every stored destination is the original entry with the method
defaulted to POST when missing and a `text/plain` Content-Type header
added when missing, so each stored entry has a non-empty method and a
Content-Type header. -/
theorem C7_validation (p : PluginState) (c : Config) :
    ((ValidateAndSetConfig p c).2 = none ↔ ∀ w ∈ c.WebHooks, validWebhookURL w.Url = true) ∧
    ((ValidateAndSetConfig p c).2 = none →
      (ValidateAndSetConfig p c).1.config =
        some { c with WebHooks := c.WebHooks.map (fun w => defaultContentType (defaultMethod w)) }) ∧
    ((ValidateAndSetConfig p c).2 = none →
      ∀ cfg, (ValidateAndSetConfig p c).1.config = some cfg →
        ∀ w ∈ cfg.WebHooks, w.Method ≠ "" ∧ hasContentType w = true) := by
  refine ⟨?_, ?_, ?_⟩
  · unfold ValidateAndSetConfig
    exact validateWebhooks_none_iff c.WebHooks
  · intro h
    unfold ValidateAndSetConfig at h ⊢
    simp only [Option.some.injEq]
    rw [validateWebhooks_fst_of_none c.WebHooks h]
  · intro h cfg hcfg w hw
    unfold ValidateAndSetConfig at h hcfg
    rw [validateWebhooks_fst_of_none c.WebHooks h] at hcfg
    injection hcfg with hcfg1
    subst hcfg1
    simp only [List.mem_map] at hw
    rcases hw with ⟨w0, _, hw0⟩
    subst hw0
    refine ⟨?_, defaultContentType_hasCT (defaultMethod w0)⟩
    rw [defaultContentType_Method]
    exact defaultMethod_Method_ne w0

/-- Witness for C7: the concrete valid configuration is accepted and stored
with the POST and text/plain defaults written in. -/
theorem C7_validation_witness :
    (ValidateAndSetConfig pInit cfgOK).1.config =
      some { cfgOK with
             WebHooks := cfgOK.WebHooks.map (fun w => defaultContentType (defaultMethod w)) } :=
  (C7_validation pInit cfgOK).2.1 rfl

theorem validateWebhooks_append_err (good : List WebHook) (bad : WebHook) (rest : List WebHook)
    (hgood : ∀ w ∈ good, validWebhookURL w.Url = true)
    (hbad : validWebhookURL bad.Url = false) :
    validateWebhooks (good ++ bad :: rest) =
      (good.map applyDefaults ++ defaultMethod bad :: rest,
       some ("invalid webhook URL: " ++ bad.Url)) := by
  induction good with
  | nil =>
    simp only [List.nil_append, List.map_nil]
    unfold validateWebhooks
    rw [if_pos (by rw [defaultMethod_Url]; simp [hbad])]
    rw [defaultMethod_Url]
  | cons g gs ih =>
    have hg : validWebhookURL g.Url = true := hgood g (List.mem_cons_self g gs)
    simp only [List.cons_append, List.map_cons]
    unfold validateWebhooks
    rw [if_neg (by rw [defaultMethod_Url]; simp [hg])]
    rw [ih (fun w hw => hgood w (List.mem_cons_of_mem g hw))]
    simp [applyDefaults]

/-- Claim C10: `ValidateAndSetConfig` stores the incoming configuration
before validating.  When some destination has an invalid URL (all entries
before it valid), the call errors, yet the plugin's stored config is
already the new one: entries before the offender carry both defaults, the
offender carries the method default, the rest are untouched — and the
result is the same whatever configuration was stored before, so the old
one is not restored. -/
theorem C10_validation_nonatomic (p p' : PluginState) (c : Config) (good : List WebHook)
    (bad : WebHook) (rest : List WebHook)
    (hsplit : c.WebHooks = good ++ bad :: rest)
    (hgood : ∀ w ∈ good, validWebhookURL w.Url = true)
    (hbad : validWebhookURL bad.Url = false) :
    (ValidateAndSetConfig p c).2 = some ("invalid webhook URL: " ++ bad.Url) ∧
    (ValidateAndSetConfig p c).1.config =
      some { c with WebHooks := good.map applyDefaults ++ defaultMethod bad :: rest } ∧
    (ValidateAndSetConfig p c).1.config = (ValidateAndSetConfig p' c).1.config := by
  unfold ValidateAndSetConfig
  rw [hsplit, validateWebhooks_append_err good bad rest hgood hbad]
  exact ⟨rfl, rfl, rfl⟩

/-- Witness for C10 at the concrete two-entry configuration: the call
errors and the stored config is the half-defaulted new one. -/
theorem C10_validation_nonatomic_witness :
    (ValidateAndSetConfig pInit cfgBad).2 = some ("invalid webhook URL: " ++ whBad.Url) ∧
    (ValidateAndSetConfig pInit cfgBad).1.config =
      some { cfgBad with WebHooks := [whGood].map applyDefaults ++ defaultMethod whBad :: [] } ∧
    (ValidateAndSetConfig pInit cfgBad).1.config =
      (ValidateAndSetConfig { pInit with ctxCancelled := true } cfgBad).1.config :=
  C10_validation_nonatomic pInit { pInit with ctxCancelled := true } cfgBad
    [whGood] whBad [] rfl (by decide) (by decide)

end GotifyWebhook
